import Mathlib

/-!
Verification of the rolling-restart orchestration script `restart_asg.py`.

The script is embedded shallowly: every provider call (autoscaling,
EC2, ECS) is a field of an explicit environment record, time is an
explicit clock advanced by the `sleep` calls and by per-observation
gaps supplied by the environment, and loops whose termination depends
on the provider are given explicit fuel (`none` = the loop did not
exit within the fuel, i.e. the Python loop is still running).
Exceptions are `Except` values.
-/

namespace RestartAsg

/-- A Python exception, as observable by the caller. -/
inductive PyErr where
  /-- `raise Exception(msg)` -/
  | exn (msg : String)
  /-- an `IndexError` from indexing `[0]` into an empty list -/
  | indexError
  /-- a `WaiterError` raised by a boto3 waiter -/
  | waiterError
deriving DecidableEq

/-! ## Group Inspector (`get_groups`, lines 21-36) -/

/-- One entry of `group['Instances']` in the autoscaling describe response. -/
structure AsgInstance where
  instanceId : String
  lifecycleState : String
deriving DecidableEq

/-- One entry of `response['AutoScalingGroups']`. -/
structure ASGroup where
  desiredCapacity : Nat
  instances : List AsgInstance
deriving DecidableEq

/-- The `(capacity, ids)` pair built by `get_groups` for each group. -/
abbrev GroupInfo := Nat × List String

/-- The autoscaling provider: `describe_auto_scaling_groups` keyed by the
requested group name.  A name that matches no group yields `.ok []`
(the provider omits unknown names from the response rather than
erroring); a provider-side failure yields `.error`. -/
def AsgEnv := String → Except String (List ASGroup)

/-- The `for instance in group['Instances']` filter loop of `get_groups`
(lines 30-33): collect the ids of instances whose lifecycle state is
`'InService'`. -/
def inServiceIds : List AsgInstance → List String
  | [] => []
  | inst :: rest =>
    if inst.lifecycleState = "InService" then inst.instanceId :: inServiceIds rest
    else inServiceIds rest

/-- `get_groups(asg_name, region)` (lines 21-36): describe the group and
return one `(DesiredCapacity, in-service ids)` pair per returned group.
A provider error propagates (the function installs no handler). -/
def get_groups (asg_name : String) (env : AsgEnv) : Except String (List GroupInfo) :=
  match env asg_name with
  | .error e => .error e
  | .ok groups => .ok (groups.map fun g => (g.desiredCapacity, inServiceIds g.instances))

theorem mem_inServiceIds (l : List AsgInstance) (x : String) :
    x ∈ inServiceIds l ↔ ∃ inst ∈ l, inst.lifecycleState = "InService" ∧ inst.instanceId = x := by
  induction l with
  | nil => simp [inServiceIds]
  | cons inst rest ih =>
    by_cases h : inst.lifecycleState = "InService"
    · simp only [inServiceIds, if_pos h, List.mem_cons]
      constructor
      · rintro (rfl | hx)
        · exact ⟨inst, Or.inl rfl, h, rfl⟩
        · obtain ⟨i, hi, hs, hid⟩ := ih.mp hx
          exact ⟨i, Or.inr hi, hs, hid⟩
      · rintro ⟨i, (rfl | hi), hs, hid⟩
        · exact Or.inl hid.symm
        · exact Or.inr (ih.mpr ⟨i, hi, hs, hid⟩)
    · simp only [inServiceIds, if_neg h]
      rw [ih]
      constructor
      · rintro ⟨i, hi, hs, hid⟩
        exact ⟨i, List.mem_cons_of_mem _ hi, hs, hid⟩
      · rintro ⟨i, hi, hs, hid⟩
        rcases List.mem_cons.mp hi with rfl | hi
        · exact absurd hs h
        · exact ⟨i, hi, hs, hid⟩

/-- C9: For every group returned by the Group Inspector, the member id
list contains exactly the instances whose lifecycle state is
`'InService'`, and the reported desired capacity is the group's desired
capacity unchanged. -/
theorem get_groups_inService_filter (name : String) (env : AsgEnv)
    (groups : List ASGroup) (h : env name = .ok groups) :
    ∃ infos : List GroupInfo, get_groups name env = .ok infos ∧
      infos.length = groups.length ∧
      ∀ i (hi : i < groups.length), ∃ ids : List String,
        infos.get? i = some ((groups.get ⟨i, hi⟩).desiredCapacity, ids) ∧
        ∀ x : String, x ∈ ids ↔
          ∃ inst ∈ (groups.get ⟨i, hi⟩).instances,
            inst.lifecycleState = "InService" ∧ inst.instanceId = x := by
  refine ⟨groups.map fun g => (g.desiredCapacity, inServiceIds g.instances), ?_, by simp, ?_⟩
  · simp [get_groups, h]
  · intro i hi
    refine ⟨inServiceIds (groups.get ⟨i, hi⟩).instances, ?_, fun x => mem_inServiceIds _ x⟩
    rw [List.get?_map, List.get?_eq_get hi]
    rfl

/-- C9 witness: a concrete group with one `InService` and one `Pending`
instance; only the in-service id is reported, at unchanged capacity 2. -/
theorem get_groups_inService_filter_witness :
    ∃ infos : List GroupInfo,
      get_groups "web" (fun _ => .ok [⟨2, [⟨"i-1", "InService"⟩, ⟨"i-2", "Pending"⟩]⟩])
          = .ok infos ∧
      infos.length = 1 := by
  obtain ⟨infos, h1, h2, -⟩ := get_groups_inService_filter "web"
    (fun _ => .ok [⟨2, [⟨"i-1", "InService"⟩, ⟨"i-2", "Pending"⟩]⟩])
    [⟨2, [⟨"i-1", "InService"⟩, ⟨"i-2", "Pending"⟩]⟩] rfl
  exact ⟨infos, h1, h2⟩

/-- C8 counterexample: when the named group does not exist the provider
returns an empty `AutoScalingGroups` list, and `get_groups` returns the
result `.ok []` normally — it does not fail with a `LookupError` (the
function contains no not-found check at all). -/
theorem get_groups_missing_returns_empty :
    get_groups "missing-asg" (fun _ => .ok []) = .ok [] := rfl

/-- C8 amended: when the named group does not exist (the provider call
succeeds with an empty group list), `get_groups` returns an empty list
without raising; it fails only when the provider call itself errors, in
which case the error is propagated unchanged. -/
theorem get_groups_missing_amended (name : String) (env : AsgEnv) :
    (env name = .ok [] → get_groups name env = .ok []) ∧
    (∀ e, env name = .error e → get_groups name env = .error e) := by
  constructor
  · intro h
    simp [get_groups, h]
  · intro e h
    simp [get_groups, h]

/-- C8 amended witness: at a provider with no matching group the result
is `.ok []`; at an erroring provider the error propagates. -/
theorem get_groups_missing_amended_witness :
    get_groups "missing-asg" (fun _ => .ok []) = .ok [] ∧
    get_groups "a" (fun _ => .error "boom") = .error "boom" :=
  ⟨(get_groups_missing_amended "missing-asg" (fun _ => .ok [])).1 rfl,
   (get_groups_missing_amended "a" (fun _ => .error "boom")).2 "boom" rfl⟩

/-! ## Workload Drainer (`drain_instance` / `get_running_tasks`, lines 39-79) -/

/-- One response of `list_container_instances`. -/
structure Page where
  containerInstanceArns : List String
  nextToken : Option String
deriving DecidableEq

/-- One entry of `describe_container_instances`'s `containerInstances`. -/
structure ContainerInstance where
  containerInstanceArn : String
  ec2InstanceId : String
  runningTasksCount : Nat
deriving DecidableEq

/-- The ECS provider as seen by one `drain_instance` call.
`listPage tok` is the page the provider would serve for continuation
token `tok`; the code only ever requests `listPage none` (it never
passes the token back — the source of the pagination bug).
`describeAt k` is the response of the k-th `describe_container_instances`
call (call 0 is the bulk describe, calls 1.. are the task polls).
`gap i` is the wall-clock gap, in seconds, in front of the i-th
`time.time()` reading (covering the provider round-trips and prints
between readings); `sleep(30)` adds a further 30 seconds. -/
structure EcsEnv where
  listPage : Option String → Page
  describeAt : Nat → List String → List ContainerInstance
  drainFailures : String → List String
  gap : Nat → Nat

/-- The pagination loop of `drain_instance` (lines 41-45): the code
re-issues `list_container_instances(cluster=ecs_cluster)` WITHOUT the
continuation token, so every iteration sees the same first page.
`none` = the loop has not exited within `fuel` iterations. -/
def collectLoop (firstPage : Page) (fuel : Nat) (acc : List String) : Option (List String) :=
  if firstPage.nextToken.isSome then
    match fuel with
    | 0 => none
    | fuel' + 1 => collectLoop firstPage fuel' (acc ++ firstPage.containerInstanceArns)
  else some acc

/-- `get_running_tasks` (lines 75-79): unconditionally indexes
`['containerInstances'][0]`; in the total embedding this is `head?`. -/
def get_running_tasks (describe : List String → List ContainerInstance)
    (container_instance_id : String) : Option Nat :=
  ((describe [container_instance_id]).head?).map fun inst => inst.runningTasksCount

/-- The result of one pass through the drain-polling loop. -/
structure PollResult where
  /-- how many `time.sleep(30)` calls were executed -/
  sleeps : Nat
  /-- the `time.time()` reading taken by the final `if time.time() > end_time` check,
  as seconds elapsed since the reading that fixed `end_time` -/
  finalClock : Nat
  /-- whether "Timed out waiting for instance to drain." was printed -/
  timedOutLogged : Bool
deriving DecidableEq

/-- One evaluation of the guard of the drain-polling loop (line 65)
together with the actions it triggers.  `tasks k` is the value the k-th
`get_running_tasks` call would produce (`none` = empty describe
response, raising `IndexError`); clocks are in seconds with
`end_time = 600` relative to the line-64 reading.  `k` is the index of
the current `running_tasks` value, `clock` the time of the most recent
reading, `gi` the next gap index, `sleeps` the sleeps so far.
`.inl` = the loop body runs (sleep 30, print, re-poll) and yields the
next state; `.inr` = the loop exits (lines 69-71) or raises. -/
def drainPollStep (tasks : Nat → Option Nat) (gap : Nat → Nat)
    (k clock gi sleeps : Nat) : (Nat × Nat × Nat × Nat) ⊕ Except PyErr PollResult :=
  match tasks k with
  | none => .inr (.error .indexError)
  | some n =>
    if n = 0 then
      .inr (.ok ⟨sleeps, clock + gap gi, decide (600 < clock + gap gi)⟩)
    else if clock + gap gi < 600 then
      .inl (k + 1, clock + gap gi + 30, gi + 1, sleeps + 1)
    else
      .inr (.ok ⟨sleeps, clock + gap gi + gap (gi + 1),
        decide (600 < clock + gap gi + gap (gi + 1))⟩)

/-- The drain-polling loop of `drain_instance` (lines 63-71), iterating
`drainPollStep`.  `none` = the loop has not exited within `fuel` further
iterations. -/
def drainPollLoop (tasks : Nat → Option Nat) (gap : Nat → Nat) :
    Nat → Nat → Nat → Nat → Nat → Option (Except PyErr PollResult)
  | 0, k, clock, gi, sleeps =>
    match drainPollStep tasks gap k clock gi sleeps with
    | .inr res => some res
    | .inl _ => none
  | fuel + 1, k, clock, gi, sleeps =>
    match drainPollStep tasks gap k clock gi sleeps with
    | .inr res => some res
    | .inl (k', clock', gi', sleeps') => drainPollLoop tasks gap fuel k' clock' gi' sleeps'

/-- The `for instance in all_instances['containerInstances']` loop of
`drain_instance` (lines 50-72): find the container instance whose
`ec2InstanceId` matches, set it DRAINING, check the reported failures,
poll the running-task count; if no record matches, fall through to the
`raise` on line 72. -/
def drainFind (env : EcsEnv) (instance_id ecs_cluster region : String) :
    List ContainerInstance → Option (Except PyErr Unit)
  | [] => some (.error (.exn
      ("Could not find " ++ instance_id ++ " in " ++ ecs_cluster ++ " (" ++ region ++ ")")))
  | inst :: rest =>
    if inst.ec2InstanceId = instance_id then
      match env.drainFailures inst.containerInstanceArn with
      | [] =>
        match drainPollLoop
            (fun k => get_running_tasks (env.describeAt (k + 1)) inst.containerInstanceArn)
            env.gap 21 0 0 0 0 with
        | none => none
        | some (.error e) => some (.error e)
        | some (.ok _) => some (.ok ())
      | f :: fs => some (.error (.exn
          ("Failed to drain: " ++ String.intercalate ", " (f :: fs))))
    else drainFind env instance_id ecs_cluster region rest

/-- `drain_instance(instance_id, ecs_cluster, region)` (lines 39-72).
`none` = the call never returns (the pagination loop spins forever). -/
def drain_instance (env : EcsEnv) (instance_id ecs_cluster region : String)
    (fuel : Nat) : Option (Except PyErr Unit) :=
  match collectLoop (env.listPage none) fuel (env.listPage none).containerInstanceArns with
  | none => none
  | some container_instances =>
    drainFind env instance_id ecs_cluster region (env.describeAt 0 container_instances)

theorem collectLoop_token_diverges (page : Page) (h : page.nextToken.isSome) :
    ∀ fuel acc, collectLoop page fuel acc = none := by
  intro fuel
  induction fuel with
  | zero => intro acc; simp [collectLoop, h]
  | succ fuel ih => intro acc; simp only [collectLoop, h, if_pos]; exact ih _

/-- C2: whenever the first page of the container-host listing carries a
continuation token, `drain_instance` never terminates: the loop
re-requests the first page without the token, so later pages are never
fetched, no aggregate is ever formed, and resolution is never even
attempted — contradicting the claim that a record on a later page is
found. -/
theorem drain_instance_pagination_diverges (env : EcsEnv)
    (instance_id ecs_cluster region : String) (fuel : Nat)
    (h : (env.listPage none).nextToken.isSome) :
    drain_instance env instance_id ecs_cluster region fuel = none := by
  simp [drain_instance, collectLoop_token_diverges _ h]

/-- C2 witness: a two-page cluster listing (first page carries token
"t1"; the target host `i-9` is on the second page): `drain_instance`
diverges instead of resolving `i-9`. -/
theorem drain_instance_pagination_diverges_witness :
    drain_instance
      ⟨fun tok => if tok = none then ⟨["arn-1"], some "t1"⟩ else ⟨["arn-2"], none⟩,
       fun _ arns => if arns = ["arn-1", "arn-2"] then [⟨"arn-2", "i-9", 0⟩] else [],
       fun _ => [], fun _ => 1⟩
      "i-9" "prod-cluster" "us-east-1" 1000 = none :=
  drain_instance_pagination_diverges _ "i-9" "prod-cluster" "us-east-1" 1000 (by simp)

theorem drainPollStep_eq_inl (tasks : Nat → Option Nat) (gap : Nat → Nat)
    (k clock gi sleeps k' clock' gi' sleeps' : Nat)
    (h : drainPollStep tasks gap k clock gi sleeps = .inl (k', clock', gi', sleeps')) :
    k' = k + 1 ∧ clock' = clock + gap gi + 30 ∧ gi' = gi + 1 ∧ sleeps' = sleeps + 1 ∧
      clock + gap gi < 600 ∧ ∃ n, tasks k = some n ∧ n ≠ 0 := by
  cases htk : tasks k with
  | none => simp [drainPollStep, htk] at h
  | some n =>
    simp only [drainPollStep, htk] at h
    by_cases hn : n = 0
    · rw [if_pos hn] at h; simp at h
    · rw [if_neg hn] at h
      by_cases hcl : clock + gap gi < 600
      · rw [if_pos hcl] at h
        simp only [Sum.inl.injEq, Prod.mk.injEq] at h
        exact ⟨h.1.symm, h.2.1.symm, h.2.2.1.symm, h.2.2.2.symm, hcl, n, rfl, hn⟩
      · rw [if_neg hcl] at h; simp at h

theorem drainPollStep_eq_inr (tasks : Nat → Option Nat) (gap : Nat → Nat)
    (k clock gi sleeps : Nat) (res : Except PyErr PollResult)
    (h : drainPollStep tasks gap k clock gi sleeps = .inr res) :
    (tasks k = none ∧ res = .error .indexError) ∨
    (tasks k = some 0 ∧
      res = .ok ⟨sleeps, clock + gap gi, decide (600 < clock + gap gi)⟩) ∨
    ((∃ n, tasks k = some n ∧ n ≠ 0) ∧ ¬ clock + gap gi < 600 ∧
      res = .ok ⟨sleeps, clock + gap gi + gap (gi + 1),
        decide (600 < clock + gap gi + gap (gi + 1))⟩) := by
  cases htk : tasks k with
  | none =>
    simp only [drainPollStep, htk, Sum.inr.injEq] at h
    exact Or.inl ⟨rfl, h.symm⟩
  | some n =>
    simp only [drainPollStep, htk] at h
    by_cases hn : n = 0
    · rw [if_pos hn] at h
      simp only [Sum.inr.injEq] at h
      exact Or.inr (Or.inl ⟨by rw [hn], h.symm⟩)
    · rw [if_neg hn] at h
      by_cases hcl : clock + gap gi < 600
      · rw [if_pos hcl] at h; simp at h
      · rw [if_neg hcl] at h
        simp only [Sum.inr.injEq] at h
        exact Or.inr (Or.inr ⟨⟨n, rfl, hn⟩, hcl, h.symm⟩)

theorem drainPollLoop_isSome (tasks : Nat → Option Nat) (gap : Nat → Nat)
    (hs : ∀ i, (tasks i).isSome) :
    ∀ fuel k clock gi sleeps, 600 ≤ clock + 30 * fuel →
    ∃ r, drainPollLoop tasks gap fuel k clock gi sleeps = some (.ok r) := by
  intro fuel
  induction fuel with
  | zero =>
    intro k clock gi sleeps hb
    cases hstep : drainPollStep tasks gap k clock gi sleeps with
    | inl s =>
      obtain ⟨s1, s2, s3, s4⟩ := s
      obtain ⟨-, -, -, -, hcl, -⟩ := drainPollStep_eq_inl tasks gap _ _ _ _ _ _ _ _ hstep
      omega
    | inr res =>
      rcases drainPollStep_eq_inr tasks gap _ _ _ _ _ hstep with
        ⟨hnone, -⟩ | ⟨-, hres⟩ | ⟨-, -, hres⟩
      · exact absurd (hs k) (by simp [hnone])
      · subst hres
        exact ⟨⟨sleeps, clock + gap gi, decide (600 < clock + gap gi)⟩,
          by simp [drainPollLoop, hstep]⟩
      · subst hres
        exact ⟨⟨sleeps, clock + gap gi + gap (gi + 1),
            decide (600 < clock + gap gi + gap (gi + 1))⟩,
          by simp [drainPollLoop, hstep]⟩
  | succ fuel ih =>
    intro k clock gi sleeps hb
    cases hstep : drainPollStep tasks gap k clock gi sleeps with
    | inl s =>
      obtain ⟨k', clock', gi', sleeps'⟩ := s
      obtain ⟨-, hc', -, -, hcl, -⟩ := drainPollStep_eq_inl tasks gap _ _ _ _ _ _ _ _ hstep
      obtain ⟨r, hr⟩ := ih k' clock' gi' sleeps' (by omega)
      exact ⟨r, by simp [drainPollLoop, hstep, hr]⟩
    | inr res =>
      rcases drainPollStep_eq_inr tasks gap _ _ _ _ _ hstep with
        ⟨hnone, -⟩ | ⟨-, hres⟩ | ⟨-, -, hres⟩
      · exact absurd (hs k) (by simp [hnone])
      · subst hres
        exact ⟨⟨sleeps, clock + gap gi, decide (600 < clock + gap gi)⟩,
          by simp [drainPollLoop, hstep]⟩
      · subst hres
        exact ⟨⟨sleeps, clock + gap gi + gap (gi + 1),
            decide (600 < clock + gap gi + gap (gi + 1))⟩,
          by simp [drainPollLoop, hstep]⟩

theorem drainPollLoop_sleeps_le (tasks : Nat → Option Nat) (gap : Nat → Nat) :
    ∀ fuel k clock gi sleeps j r, k ≤ j → tasks j = some 0 →
    drainPollLoop tasks gap fuel k clock gi sleeps = some (.ok r) →
    r.sleeps ≤ sleeps + (j - k) := by
  intro fuel
  induction fuel with
  | zero =>
    intro k clock gi sleeps j r hkj hj hr
    cases hstep : drainPollStep tasks gap k clock gi sleeps with
    | inl s => simp [drainPollLoop, hstep] at hr
    | inr res =>
      rw [show drainPollLoop tasks gap 0 k clock gi sleeps = some res by
        simp [drainPollLoop, hstep]] at hr
      rcases drainPollStep_eq_inr tasks gap _ _ _ _ _ hstep with
        ⟨-, hres⟩ | ⟨-, hres⟩ | ⟨-, -, hres⟩
      · rw [hres] at hr; simp at hr
      · rw [hres] at hr
        have : r.sleeps = sleeps := by
          have := Except.ok.inj (Option.some.inj hr)
          rw [← this]
        omega
      · rw [hres] at hr
        have : r.sleeps = sleeps := by
          have := Except.ok.inj (Option.some.inj hr)
          rw [← this]
        omega
  | succ fuel ih =>
    intro k clock gi sleeps j r hkj hj hr
    cases hstep : drainPollStep tasks gap k clock gi sleeps with
    | inl s =>
      obtain ⟨k', clock', gi', sleeps'⟩ := s
      obtain ⟨hk', -, -, hs', -, n, htk, hn⟩ :=
        drainPollStep_eq_inl tasks gap _ _ _ _ _ _ _ _ hstep
      have hr' : drainPollLoop tasks gap fuel k' clock' gi' sleeps' = some (.ok r) := by
        rw [← hr]; simp [drainPollLoop, hstep]
      have hkj' : k < j := by
        rcases Nat.lt_or_ge k j with h | h
        · exact h
        · have : k = j := by omega
          subst this
          rw [htk] at hj
          exact absurd (Option.some.inj hj) hn
      have := ih k' clock' gi' sleeps' j r (by omega) hj hr'
      omega
    | inr res =>
      rw [show drainPollLoop tasks gap (fuel + 1) k clock gi sleeps = some res by
        simp [drainPollLoop, hstep]] at hr
      rcases drainPollStep_eq_inr tasks gap _ _ _ _ _ hstep with
        ⟨-, hres⟩ | ⟨-, hres⟩ | ⟨-, -, hres⟩
      · rw [hres] at hr; simp at hr
      · rw [hres] at hr
        have : r.sleeps = sleeps := by
          have := Except.ok.inj (Option.some.inj hr)
          rw [← this]
        omega
      · rw [hres] at hr
        have : r.sleeps = sleeps := by
          have := Except.ok.inj (Option.some.inj hr)
          rw [← this]
        omega

theorem drainPollLoop_timeout (tasks : Nat → Option Nat) (gap : Nat → Nat)
    (h0 : ∀ i, tasks i ≠ some 0) (hgap1 : ∀ i, 1 ≤ gap i) (hgap60 : ∀ i, gap i ≤ 60) :
    ∀ fuel k clock gi sleeps r, clock ≤ 629 →
    drainPollLoop tasks gap fuel k clock gi sleeps = some (.ok r) →
    r.timedOutLogged = true ∧ 600 ≤ r.finalClock ∧ r.finalClock ≤ 750 := by
  intro fuel
  induction fuel with
  | zero =>
    intro k clock gi sleeps r hcb hr
    cases hstep : drainPollStep tasks gap k clock gi sleeps with
    | inl s => simp [drainPollLoop, hstep] at hr
    | inr res =>
      rw [show drainPollLoop tasks gap 0 k clock gi sleeps = some res by
        simp [drainPollLoop, hstep]] at hr
      rcases drainPollStep_eq_inr tasks gap _ _ _ _ _ hstep with
        ⟨-, hres⟩ | ⟨htk, -⟩ | ⟨-, hcl, hres⟩
      · rw [hres] at hr; simp at hr
      · exact absurd htk (h0 k)
      · rw [hres] at hr
        have hrr := (Except.ok.inj (Option.some.inj hr)).symm
        have g1 := hgap1 gi
        have g2 := hgap1 (gi + 1)
        have g3 := hgap60 gi
        have g4 := hgap60 (gi + 1)
        rw [hrr]
        refine ⟨by simp; omega, by simp; omega, by simp; omega⟩
  | succ fuel ih =>
    intro k clock gi sleeps r hcb hr
    cases hstep : drainPollStep tasks gap k clock gi sleeps with
    | inl s =>
      obtain ⟨k', clock', gi', sleeps'⟩ := s
      obtain ⟨-, hc', -, -, hcl, -⟩ := drainPollStep_eq_inl tasks gap _ _ _ _ _ _ _ _ hstep
      have hr' : drainPollLoop tasks gap fuel k' clock' gi' sleeps' = some (.ok r) := by
        rw [← hr]; simp [drainPollLoop, hstep]
      exact ih k' clock' gi' sleeps' r (by omega) hr'
    | inr res =>
      rw [show drainPollLoop tasks gap (fuel + 1) k clock gi sleeps = some res by
        simp [drainPollLoop, hstep]] at hr
      rcases drainPollStep_eq_inr tasks gap _ _ _ _ _ hstep with
        ⟨-, hres⟩ | ⟨htk, -⟩ | ⟨-, hcl, hres⟩
      · rw [hres] at hr; simp at hr
      · exact absurd htk (h0 k)
      · rw [hres] at hr
        have hrr := (Except.ok.inj (Option.some.inj hr)).symm
        have g1 := hgap1 gi
        have g2 := hgap1 (gi + 1)
        have g3 := hgap60 gi
        have g4 := hgap60 (gi + 1)
        rw [hrr]
        refine ⟨by simp; omega, by simp; omega, by simp; omega⟩

theorem drainPollLoop_zero_first (tasks : Nat → Option Nat) (gap : Nat → Nat)
    (fuel sleeps : Nat) (h : tasks 0 = some 0) :
    drainPollLoop tasks gap fuel 0 0 0 sleeps
      = some (.ok ⟨sleeps, gap 0, decide (600 < gap 0)⟩) := by
  cases fuel with
  | zero => simp [drainPollLoop, drainPollStep, h]
  | succ fuel => simp [drainPollLoop, drainPollStep, h]

/-- C6: for every drain cycle after a successful DRAINING transition
(the polling loop of lines 63-71, with well-formed provider responses
and each non-sleep step taking 1-60 s): the loop always returns without
raising; when the running-task count is 0 at the first check it sleeps
zero times and logs no timeout; it never sleeps beyond the tick at
which the count reads 0; and when the count never reaches 0 it returns
normally after approximately 600 seconds (final clock in [600, 750])
with the timeout logged. -/
theorem drain_poll_budget (tasks : Nat → Option Nat) (gap : Nat → Nat)
    (hsome : ∀ i, (tasks i).isSome) (hgap1 : ∀ i, 1 ≤ gap i) (hgap60 : ∀ i, gap i ≤ 60) :
    ∃ r : PollResult, drainPollLoop tasks gap 21 0 0 0 0 = some (.ok r) ∧
      (tasks 0 = some 0 → r.sleeps = 0 ∧ r.timedOutLogged = false) ∧
      (∀ j, tasks j = some 0 → r.sleeps ≤ j) ∧
      ((∀ i, tasks i ≠ some 0) →
        r.timedOutLogged = true ∧ 600 ≤ r.finalClock ∧ r.finalClock ≤ 750) := by
  obtain ⟨r, hr⟩ := drainPollLoop_isSome tasks gap hsome 21 0 0 0 0 (by omega)
  refine ⟨r, hr, ?_, ?_, ?_⟩
  · intro h0
    have heq := drainPollLoop_zero_first tasks gap 21 0 h0
    rw [hr] at heq
    have hre : r = ⟨0, gap 0, decide (600 < gap 0)⟩ := by
      have := Option.some.inj heq
      exact Except.ok.inj this
    have g := hgap60 0
    rw [hre]
    exact ⟨rfl, by simp; omega⟩
  · intro j hj
    have := drainPollLoop_sleeps_le tasks gap 21 0 0 0 0 j r (Nat.zero_le j) hj hr
    simpa using this
  · intro hnever
    exact drainPollLoop_timeout tasks gap hnever hgap1 hgap60 21 0 0 0 0 r (by omega) hr

/-- C6 witness: a container host that already reports zero running
tasks at the first check, with every non-sleep step taking 1 s. -/
theorem drain_poll_budget_witness :
    ∃ r : PollResult, drainPollLoop (fun _ => some 0) (fun _ => 1) 21 0 0 0 0
        = some (.ok r) ∧ r.sleeps = 0 ∧ r.timedOutLogged = false := by
  obtain ⟨r, h1, h2, -, -⟩ := drain_poll_budget (fun _ => some 0) (fun _ => 1)
    (fun _ => rfl) (fun _ => le_refl 1) (fun _ => by show (1 : Nat) ≤ 60; omega)
  exact ⟨r, h1, h2 rfl⟩

theorem drainFind_no_match (env : EcsEnv) (instance_id ecs_cluster region : String) :
    ∀ l : List ContainerInstance, (∀ inst ∈ l, inst.ec2InstanceId ≠ instance_id) →
    drainFind env instance_id ecs_cluster region l = some (.error (.exn
      ("Could not find " ++ instance_id ++ " in " ++ ecs_cluster ++ " (" ++ region ++ ")"))) := by
  intro l
  induction l with
  | nil => intro _; rfl
  | cons inst rest ih =>
    intro h
    have hne : inst.ec2InstanceId ≠ instance_id := h inst (List.mem_cons_self _ _)
    simp only [drainFind, if_neg hne]
    exact ih fun i hi => h i (List.mem_cons_of_mem _ hi)

theorem collectLoop_single_page (page : Page) (h : page.nextToken = none) (fuel : Nat)
    (acc : List String) : collectLoop page fuel acc = some acc := by
  unfold collectLoop
  rw [h]
  rfl

/-! ## Capacity Waiter (`wait_for_running`, lines 113-131) -/

/-- The `WaiterConfig` dict passed to `waiter.wait` on line 129. -/
structure WaiterConfig where
  maxAttempts : Nat
  delay : Nat
deriving DecidableEq

/-- Observable provider calls of `wait_for_running`: the
`instance_status_ok` waiter invocation with its id list and config. -/
inductive WfrEvent where
  | healthWait (capacity : Nat) (ids : List String) (cfg : WaiterConfig)
deriving DecidableEq

/-- The `for capacity, instance_ids in group_info` loop of
`wait_for_running` (lines 120-131): sleep 30 s per subgroup, skip
subgroups whose in-service count differs from the desired capacity,
stop at the first subgroup whose count matches.  Returns the clock
after the loop and the matched subgroup, if any. -/
def wfrInner : List GroupInfo → Nat → Nat × Option GroupInfo
  | [], clock => (clock, none)
  | (capacity, ids) :: rest, clock =>
    if ids.length ≠ capacity then wfrInner rest (clock + 30)
    else (clock + 30, some (capacity, ids))

/-- One evaluation of the `while time.time() < end_time` guard of
`wait_for_running` (line 118) and the body it triggers.  `fetch k` is
the k-th `get_groups` result; `.inl` = next loop state, `.inr` = the
function returns (or the re-raised waiter error propagates), carrying
the emitted events, the final clock reading and the outcome. -/
def wfrStep (fetch : Nat → Except String (List GroupInfo)) (gap : Nat → Nat)
    (healthWait : List String → Except PyErr Unit) (endTime k clock gi : Nat) :
    (Nat × Nat × Nat) ⊕ (List WfrEvent × Nat × Except PyErr Unit) :=
  if clock + gap gi < endTime then
    match fetch k with
    | .error e => .inr ([], clock + gap gi, .error (.exn e))
    | .ok groups =>
      match wfrInner groups (clock + gap gi) with
      | (clock', none) => .inl (k + 1, clock', gi + 1)
      | (clock', some (capacity, ids)) =>
        .inr ([.healthWait capacity ids ⟨100, 15⟩], clock', healthWait ids)
  else .inr ([], clock + gap gi, .ok ())

/-- The outer polling loop of `wait_for_running` (lines 118-131),
iterating `wfrStep`.  `none` = the loop has not exited within `fuel`
further iterations. -/
def wfrLoop (fetch : Nat → Except String (List GroupInfo)) (gap : Nat → Nat)
    (healthWait : List String → Except PyErr Unit) (endTime : Nat) :
    Nat → Nat → Nat → Nat → Option (List WfrEvent × Nat × Except PyErr Unit)
  | 0, k, clock, gi =>
    match wfrStep fetch gap healthWait endTime k clock gi with
    | .inr res => some res
    | .inl _ => none
  | fuel + 1, k, clock, gi =>
    match wfrStep fetch gap healthWait endTime k clock gi with
    | .inr res => some res
    | .inl (k', clock', gi') => wfrLoop fetch gap healthWait endTime fuel k' clock' gi'

/-- `wait_for_running(asg_name, region, timeout=10)` (lines 113-131).
`envAt k` is the autoscaling provider's state at the k-th `get_groups`
call; `healthWait` is the `instance_status_ok` waiter; the clock is in
seconds relative to the line-116 reading, `end_time = timeout * 60`. -/
def wait_for_running (asg_name : String) (envAt : Nat → AsgEnv) (gap : Nat → Nat)
    (healthWait : List String → Except PyErr Unit) (timeout fuel : Nat) :
    Option (List WfrEvent × Nat × Except PyErr Unit) :=
  wfrLoop (fun k => get_groups asg_name (envAt k)) gap healthWait (timeout * 60) fuel 0 0 0

theorem wfrInner_found : ∀ (groups : List GroupInfo) (clock clock' : Nat)
    (cap : Nat) (ids : List String),
    wfrInner groups clock = (clock', some (cap, ids)) →
    (cap, ids) ∈ groups ∧ ids.length = cap := by
  intro groups
  induction groups with
  | nil => intro clock clock' cap ids h; simp [wfrInner] at h
  | cons p rest ih =>
    intro clock clock' cap ids h
    obtain ⟨c, is⟩ := p
    by_cases hc : is.length ≠ c
    · simp only [wfrInner, if_pos hc] at h
      obtain ⟨hm, hl⟩ := ih (clock + 30) clock' cap ids h
      exact ⟨List.mem_cons_of_mem _ hm, hl⟩
    · simp only [wfrInner, if_neg hc] at h
      obtain ⟨-, h2⟩ := Prod.mk.injEq .. ▸ h
      obtain ⟨hcap, hids⟩ := Prod.mk.injEq .. ▸ Option.some.inj h2
      subst hcap; subst hids
      exact ⟨List.mem_cons_self _ _, by omega⟩

theorem wfrInner_no_match : ∀ (groups : List GroupInfo) (clock : Nat),
    (∀ p ∈ groups, (p.2).length ≠ p.1) →
    (wfrInner groups clock).2 = none ∧ clock ≤ (wfrInner groups clock).1 := by
  intro groups
  induction groups with
  | nil => intro clock _; simp [wfrInner]
  | cons p rest ih =>
    intro clock h
    obtain ⟨c, is⟩ := p
    have hc : is.length ≠ c := h (c, is) (List.mem_cons_self _ _)
    simp only [wfrInner, if_pos hc]
    obtain ⟨h1, h2⟩ := ih (clock + 30) fun q hq => h q (List.mem_cons_of_mem _ hq)
    exact ⟨h1, by omega⟩

theorem wfrStep_eq_inr (fetch : Nat → Except String (List GroupInfo)) (gap : Nat → Nat)
    (healthWait : List String → Except PyErr Unit) (endTime k clock gi : Nat)
    (tr : List WfrEvent) (fc : Nat) (res : Except PyErr Unit)
    (h : wfrStep fetch gap healthWait endTime k clock gi = .inr (tr, fc, res)) :
    tr = [] ∨ ∃ gs cap ids clock', fetch k = .ok gs ∧
      wfrInner gs (clock + gap gi) = (clock', some (cap, ids)) ∧
      tr = [.healthWait cap ids ⟨100, 15⟩] := by
  by_cases hg : clock + gap gi < endTime
  · cases hf : fetch k with
    | error e =>
      simp only [wfrStep, if_pos hg, hf, Sum.inr.injEq, Prod.mk.injEq] at h
      exact Or.inl h.1.symm
    | ok gs =>
      cases hwi : wfrInner gs (clock + gap gi) with
      | mk clock' found =>
        cases found with
        | none => simp [wfrStep, if_pos hg, hf, hwi] at h
        | some p =>
          obtain ⟨cap, ids⟩ := p
          simp only [wfrStep, if_pos hg, hf, hwi, Sum.inr.injEq, Prod.mk.injEq] at h
          exact Or.inr ⟨gs, cap, ids, clock', rfl, hwi, h.1.symm⟩
  · simp only [wfrStep, if_neg hg, Sum.inr.injEq, Prod.mk.injEq] at h
    exact Or.inl h.1.symm

theorem wfrLoop_events (fetch : Nat → Except String (List GroupInfo)) (gap : Nat → Nat)
    (healthWait : List String → Except PyErr Unit) (endTime : Nat) :
    ∀ fuel k clock gi tr fc res,
    wfrLoop fetch gap healthWait endTime fuel k clock gi = some (tr, fc, res) →
    ∀ cap ids cfg, WfrEvent.healthWait cap ids cfg ∈ tr →
      ids.length = cap ∧ cfg = ⟨100, 15⟩ ∧ ∃ k' gs, fetch k' = .ok gs ∧ (cap, ids) ∈ gs := by
  intro fuel
  induction fuel with
  | zero =>
    intro k clock gi tr fc res hr cap ids cfg hmem
    cases hstep : wfrStep fetch gap healthWait endTime k clock gi with
    | inl s => simp [wfrLoop, hstep] at hr
    | inr out =>
      rw [show wfrLoop fetch gap healthWait endTime 0 k clock gi = some out by
        simp [wfrLoop, hstep]] at hr
      have hout : out = (tr, fc, res) := Option.some.inj hr
      subst hout
      rcases wfrStep_eq_inr fetch gap healthWait endTime k clock gi tr fc res hstep with
        htr | ⟨gs, cap', ids', clock', hf, hwi, htr⟩
      · subst htr; simp at hmem
      · subst htr
        simp only [List.mem_singleton, WfrEvent.healthWait.injEq] at hmem
        obtain ⟨hcap, hids, hcfg⟩ := hmem
        subst hcap; subst hids; subst hcfg
        obtain ⟨hm, hl⟩ := wfrInner_found gs _ _ _ _ hwi
        exact ⟨hl, rfl, k, gs, hf, hm⟩
  | succ fuel ih =>
    intro k clock gi tr fc res hr cap ids cfg hmem
    cases hstep : wfrStep fetch gap healthWait endTime k clock gi with
    | inl s =>
      obtain ⟨k', clock', gi'⟩ := s
      have hr' : wfrLoop fetch gap healthWait endTime fuel k' clock' gi'
          = some (tr, fc, res) := by
        rw [← hr]; simp [wfrLoop, hstep]
      exact ih k' clock' gi' tr fc res hr' cap ids cfg hmem
    | inr out =>
      rw [show wfrLoop fetch gap healthWait endTime (fuel + 1) k clock gi = some out by
        simp [wfrLoop, hstep]] at hr
      have hout : out = (tr, fc, res) := Option.some.inj hr
      subst hout
      rcases wfrStep_eq_inr fetch gap healthWait endTime k clock gi tr fc res hstep with
        htr | ⟨gs, cap', ids', clock', hf, hwi, htr⟩
      · subst htr; simp at hmem
      · subst htr
        simp only [List.mem_singleton, WfrEvent.healthWait.injEq] at hmem
        obtain ⟨hcap, hids, hcfg⟩ := hmem
        subst hcap; subst hids; subst hcfg
        obtain ⟨hm, hl⟩ := wfrInner_found gs _ _ _ _ hwi
        exact ⟨hl, rfl, k, gs, hf, hm⟩

theorem wfrLoop_no_match_returns (fetch : Nat → Except String (List GroupInfo))
    (gap : Nat → Nat) (healthWait : List String → Except PyErr Unit) (endTime : Nat)
    (hfet : ∀ k, ∃ gs, fetch k = .ok gs ∧ ∀ p ∈ gs, (p.2).length ≠ p.1)
    (hgap : ∀ i, 1 ≤ gap i) :
    ∀ fuel k clock gi, endTime ≤ clock + fuel →
    ∃ fc, wfrLoop fetch gap healthWait endTime fuel k clock gi = some ([], fc, .ok ()) ∧
      endTime ≤ fc := by
  intro fuel
  induction fuel with
  | zero =>
    intro k clock gi hb
    have hg : ¬ clock + gap gi < endTime := by omega
    refine ⟨clock + gap gi, ?_, by omega⟩
    simp [wfrLoop, wfrStep, if_neg hg]
  | succ fuel ih =>
    intro k clock gi hb
    by_cases hg : clock + gap gi < endTime
    · obtain ⟨gs, hf, hnm⟩ := hfet k
      obtain ⟨h1, h2⟩ := wfrInner_no_match gs (clock + gap gi) hnm
      have hwi : wfrInner gs (clock + gap gi)
          = ((wfrInner gs (clock + gap gi)).1, none) := by
        rw [← h1]
      have hstep : wfrStep fetch gap healthWait endTime k clock gi
          = .inl (k + 1, (wfrInner gs (clock + gap gi)).1, gi + 1) := by
        simp only [wfrStep, if_pos hg, hf]
        rw [hwi]
      have hg1 := hgap gi
      obtain ⟨fc, hrec, hfc⟩ := ih (k + 1) ((wfrInner gs (clock + gap gi)).1) (gi + 1)
        (by omega)
      exact ⟨fc, by simp [wfrLoop, hstep, hrec], hfc⟩
    · refine ⟨clock + gap gi, ?_, by omega⟩
      simp [wfrLoop, wfrStep, if_neg hg]

/-- C3: the Capacity Waiter never proceeds past the count wait while
the most recently fetched member count differs from the group's desired
capacity: whenever `wait_for_running` invokes the instance-level
health-check waiter (the only success path), the ids it passes belong
to a subgroup of the most recent `get_groups` fetch whose in-service
count equals its desired capacity. -/
theorem wait_for_running_count_guard (asg_name : String) (envAt : Nat → AsgEnv)
    (gap : Nat → Nat) (healthWait : List String → Except PyErr Unit) (timeout fuel : Nat)
    (tr : List WfrEvent) (fc : Nat) (res : Except PyErr Unit)
    (hrun : wait_for_running asg_name envAt gap healthWait timeout fuel = some (tr, fc, res)) :
    ∀ cap ids cfg, WfrEvent.healthWait cap ids cfg ∈ tr →
      ids.length = cap ∧
      ∃ k gs, get_groups asg_name (envAt k) = .ok gs ∧ (cap, ids) ∈ gs := by
  intro cap ids cfg hmem
  obtain ⟨h1, -, h3⟩ := wfrLoop_events (fun k => get_groups asg_name (envAt k)) gap
    healthWait (timeout * 60) fuel 0 0 0 tr fc res hrun cap ids cfg hmem
  exact ⟨h1, h3⟩

/-- C3 witness: a group of capacity 1 with one in-service member; the
health wait fires and its id list has length equal to the capacity. -/
theorem wait_for_running_count_guard_witness :
    (["i-a"] : List String).length = 1 ∧
    ∃ k gs, get_groups "web"
        ((fun _ => fun _ => .ok [⟨1, [⟨"i-a", "InService"⟩]⟩] : Nat → AsgEnv) k)
        = .ok gs ∧ ((1 : Nat), ["i-a"]) ∈ gs :=
  wait_for_running_count_guard "web" (fun _ => fun _ => .ok [⟨1, [⟨"i-a", "InService"⟩]⟩])
    (fun _ => 1) (fun _ => .ok ()) 10 601
    [.healthWait 1 ["i-a"] ⟨100, 15⟩] 31 (.ok ()) rfl 1 ["i-a"] ⟨100, 15⟩
    (List.mem_singleton.mpr rfl)

/-- C7: (a) when the in-service member count never equals the desired
capacity, `wait_for_running` returns normally after the outer deadline
(`timeout * 60` seconds, default `timeout = 10`): the result is
`.ok ()`, exactly the value the success path returns, so the caller
gets no distinguishable success/timeout signal, and no health-check
wait is ever started (empty event trace); (b) whenever the count does
match, the health-check waiter is invoked with a 15-second delay and at
most 100 attempts. -/
theorem wait_for_running_soft_deadline :
    (∀ (asg_name : String) (envAt : Nat → AsgEnv) (gap : Nat → Nat)
        (healthWait : List String → Except PyErr Unit) (timeout fuel : Nat),
      (∀ k, ∃ gs, get_groups asg_name (envAt k) = .ok gs ∧
        ∀ p ∈ gs, (p.2).length ≠ p.1) →
      (∀ i, 1 ≤ gap i) → timeout * 60 ≤ fuel →
      ∃ fc, wait_for_running asg_name envAt gap healthWait timeout fuel
          = some ([], fc, .ok ()) ∧ timeout * 60 ≤ fc) ∧
    (∀ (asg_name : String) (envAt : Nat → AsgEnv) (gap : Nat → Nat)
        (healthWait : List String → Except PyErr Unit) (timeout fuel : Nat)
        (tr : List WfrEvent) (fc : Nat) (res : Except PyErr Unit),
      wait_for_running asg_name envAt gap healthWait timeout fuel = some (tr, fc, res) →
      ∀ cap ids cfg, WfrEvent.healthWait cap ids cfg ∈ tr → cfg = ⟨100, 15⟩) := by
  constructor
  · intro asg_name envAt gap healthWait timeout fuel hfet hgap hfuel
    exact wfrLoop_no_match_returns (fun k => get_groups asg_name (envAt k)) gap
      healthWait (timeout * 60) hfet hgap fuel 0 0 0 (by omega)
  · intro asg_name envAt gap healthWait timeout fuel tr fc res hrun cap ids cfg hmem
    exact (wfrLoop_events (fun k => get_groups asg_name (envAt k)) gap healthWait
      (timeout * 60) fuel 0 0 0 tr fc res hrun cap ids cfg hmem).2.1

/-- C7 witness: a group stuck at 1 in-service member against desired
capacity 2 — `wait_for_running` times out silently with `.ok ()`; and a
concrete run whose health wait fires with config (100 attempts, 15 s). -/
theorem wait_for_running_soft_deadline_witness :
    (∃ fc, wait_for_running "web"
        (fun _ => fun _ => .ok [⟨2, [⟨"i-a", "InService"⟩]⟩])
        (fun _ => 1) (fun _ => .ok ()) 10 600 = some ([], fc, .ok ()) ∧
      10 * 60 ≤ fc) ∧
    (⟨100, 15⟩ : WaiterConfig) = ⟨100, 15⟩ := by
  constructor
  · exact wait_for_running_soft_deadline.1 "web"
      (fun _ => fun _ => .ok [⟨2, [⟨"i-a", "InService"⟩]⟩]) (fun _ => 1) (fun _ => .ok ())
      10 600 (fun k => ⟨[(2, ["i-a"])], rfl, by decide⟩) (fun _ => le_refl 1) (by omega)
  · exact wait_for_running_soft_deadline.2 "web"
      (fun _ => fun _ => .ok [⟨1, [⟨"i-a", "InService"⟩]⟩]) (fun _ => 1) (fun _ => .ok ())
      10 601 [.healthWait 1 ["i-a"] ⟨100, 15⟩] 31 (.ok ()) rfl 1 ["i-a"] ⟨100, 15⟩
      (List.mem_singleton.mpr rfl)

/-! ## Instance Terminator and Rotation Controller (`restart_all`, lines 82-110) -/

/-- One entry of a reservation's `Instances` in a `describe_instances`
response; only the state name is relevant here. -/
structure Ec2Instance where
  stateName : String
deriving DecidableEq

/-- One entry of `response['Reservations']`. -/
structure Reservation where
  instances : List Ec2Instance
deriving DecidableEq

/-- Observable provider calls of `restart_all`, in program order. -/
inductive RunEvent where
  /-- `drain_instance` invoked for this id (line 93) -/
  | drainStart (id : String)
  /-- `drain_instance` returned for this id (line 94) -/
  | drained (id : String)
  /-- `terminate_instances` called for this id (line 97) -/
  | terminate (id : String)
  /-- `term_waiter.wait` called for this id (line 99) -/
  | termWait (id : String)
  /-- `describe_instances` called for this id in the handler (line 102) -/
  | describeInst (id : String)
  /-- `wait_for_running` invoked (line 109) -/
  | capacityWait
deriving DecidableEq

/-- The environment of one `restart_all` run.  `ecsFor id` is the ECS
provider's state during the drain of `id`; `termWaitRaises id` says
whether the try-block of lines 96-99 raises for `id`;
`describeInstances id` is the line-102 response; `wfrResult id` is the
observable outcome of the `wait_for_running` call made after
terminating `id` (that function is modelled in full above; here only
its outcome matters). -/
structure RunEnv where
  asg : AsgEnv
  ecsCluster : Option String
  ecsFor : String → EcsEnv
  termWaitRaises : String → Bool
  describeInstances : String → List Reservation
  wfrResult : String → Except PyErr Unit

/-- The `response['Reservations'][0]['Instances'][0]['State']['Name']`
access of line 104; in the total embedding the two `[0]` indexings are
`head?`. -/
def state_name (env : RunEnv) (id : String) : Option String :=
  ((env.describeInstances id).head?).bind fun r =>
    (r.instances.head?).map fun i => i.stateName

/-- Outcome of the TERMINATING step for one node. -/
inductive TermStepOutcome where
  /-- the try-block completed; fall through to `wait_for_running` -/
  | proceed
  /-- the handler executed `continue`: advance to the next node directly -/
  | skipToNext
  /-- an exception propagates out of `restart_all` -/
  | aborted (e : PyErr)
deriving DecidableEq

/-- The TERMINATING step (lines 95-108): terminate, sleep 10, wait for
termination; on an exception re-query the state — `continue` if it is
`'terminated'`, re-raise otherwise (an empty describe response makes
the handler itself raise `IndexError`). -/
def terminatingStep (env : RunEnv) (id : String) : List RunEvent × TermStepOutcome :=
  if env.termWaitRaises id then
    ([.terminate id, .termWait id, .describeInst id],
      match state_name env id with
      | none => .aborted .indexError
      | some s => if s = "terminated" then .skipToNext else .aborted .waiterError)
  else ([.terminate id, .termWait id], .proceed)

/-- Outcome of processing one node of the member list: the events it
emitted and `some e` if an exception aborted the run there. -/
inductive NodeOutcome where
  | diverge
  | done (events : List RunEvent) (aborted : Option PyErr)
deriving DecidableEq

/-- Lines 95-110 after a successful (or absent) drain: the TERMINATING
step followed, on the fall-through path only, by `wait_for_running`. -/
def afterDrain (env : RunEnv) (id : String) (evs : List RunEvent) : NodeOutcome :=
  match terminatingStep env id with
  | (tevs, .proceed) =>
    match env.wfrResult id with
    | .ok _ => .done (evs ++ tevs ++ [.capacityWait]) none
    | .error e => .done (evs ++ tevs ++ [.capacityWait]) (some e)
  | (tevs, .skipToNext) => .done (evs ++ tevs) none
  | (tevs, .aborted e) => .done (evs ++ tevs) (some e)

/-- The body of the `for idx, instance_id in enumerate(instance_ids)`
loop (lines 89-110) for one node: optional drain, then terminate and
wait. -/
def processNode (env : RunEnv) (region : String) (fuel : Nat) (id : String) : NodeOutcome :=
  match env.ecsCluster with
  | none => afterDrain env id []
  | some cluster =>
    match drain_instance (env.ecsFor id) id cluster region fuel with
    | none => .diverge
    | some (.error e) => .done [.drainStart id] (some e)
    | some (.ok _) => afterDrain env id [.drainStart id, .drained id]

/-- The member-list loop of `restart_all`: process nodes in order until
one aborts; `none` = a node's drain never returned. -/
def processInstances (env : RunEnv) (region : String) (fuel : Nat) :
    List String → Option (List RunEvent × Except PyErr Unit)
  | [] => some ([], .ok ())
  | id :: rest =>
    match processNode env region fuel id with
    | .diverge => none
    | .done evs (some e) => some (evs, .error e)
    | .done evs none =>
      match processInstances env region fuel rest with
      | none => none
      | some (tr, res) => some (evs ++ tr, res)

/-- The `for capacity, instance_ids in group_info` loop (lines 87-110). -/
def processGroups (env : RunEnv) (region : String) (fuel : Nat) :
    List GroupInfo → Option (List RunEvent × Except PyErr Unit)
  | [] => some ([], .ok ())
  | (_, ids) :: rest =>
    match processInstances env region fuel ids with
    | none => none
    | some (tr, .error e) => some (tr, .error e)
    | some (tr, .ok _) =>
      match processGroups env region fuel rest with
      | none => none
      | some (tr', res) => some (tr ++ tr', res)

/-- `restart_all(asg_name, region, ecs_cluster)` (lines 82-110). -/
def restart_all (env : RunEnv) (asg_name region : String) (fuel : Nat) :
    Option (List RunEvent × Except PyErr Unit) :=
  match get_groups asg_name env.asg with
  | .error e => some ([], .error (.exn e))
  | .ok group_info => processGroups env region fuel group_info

theorem terminatingStep_events (env : RunEnv) (id : String) :
    (terminatingStep env id).1 = [.terminate id, .termWait id, .describeInst id] ∨
    (terminatingStep env id).1 = [.terminate id, .termWait id] := by
  by_cases h : env.termWaitRaises id
  · exact Or.inl (by simp [terminatingStep, h])
  · exact Or.inr (by simp [terminatingStep, h])

theorem terminatingStep_terminate_mem (env : RunEnv) (id x : String)
    (h : RunEvent.terminate x ∈ (terminatingStep env id).1) : x = id := by
  rcases terminatingStep_events env id with he | he <;> rw [he] at h <;> simp at h <;>
    exact h

theorem afterDrain_done (env : RunEnv) (id : String) (evs0 evs : List RunEvent)
    (out : Option PyErr) (h : afterDrain env id evs0 = .done evs out) :
    ∀ x, RunEvent.terminate x ∈ evs → RunEvent.terminate x ∈ evs0 ∨ x = id := by
  intro x hm
  unfold afterDrain at h
  cases hts : terminatingStep env id with
  | mk tevs tout =>
    rw [hts] at h
    have hmem : RunEvent.terminate x ∈ evs0 ++ tevs ∨
        RunEvent.terminate x ∈ evs0 ++ tevs ++ [RunEvent.capacityWait] →
        RunEvent.terminate x ∈ evs0 ∨ x = id := by
      intro hc
      have : RunEvent.terminate x ∈ evs0 ∨ RunEvent.terminate x ∈ tevs := by
        rcases hc with hc | hc
        · rcases List.mem_append.mp hc with h1 | h1
          · exact Or.inl h1
          · exact Or.inr h1
        · rcases List.mem_append.mp hc with h1 | h1
          · rcases List.mem_append.mp h1 with h2 | h2
            · exact Or.inl h2
            · exact Or.inr h2
          · simp at h1
      rcases this with h1 | h1
      · exact Or.inl h1
      · exact Or.inr (terminatingStep_terminate_mem env id x (hts ▸ h1))
    cases tout with
    | proceed =>
      cases hw : env.wfrResult id with
      | ok u =>
        rw [hw] at h
        obtain ⟨h1, -⟩ := NodeOutcome.done.injEq .. ▸ h
        exact hmem (Or.inr (h1 ▸ hm))
      | error e =>
        rw [hw] at h
        obtain ⟨h1, -⟩ := NodeOutcome.done.injEq .. ▸ h
        exact hmem (Or.inr (h1 ▸ hm))
    | skipToNext =>
      obtain ⟨h1, -⟩ := NodeOutcome.done.injEq .. ▸ h
      exact hmem (Or.inl (h1 ▸ hm))
    | aborted e =>
      obtain ⟨h1, -⟩ := NodeOutcome.done.injEq .. ▸ h
      exact hmem (Or.inl (h1 ▸ hm))

theorem processNode_terminate_drained (env : RunEnv) (region : String) (fuel : Nat)
    (id : String) (cluster : String) (evs : List RunEvent) (out : Option PyErr)
    (hc : env.ecsCluster = some cluster)
    (h : processNode env region fuel id = .done evs out)
    (x : String) (hm : RunEvent.terminate x ∈ evs) :
    x = id ∧ drain_instance (env.ecsFor id) id cluster region fuel = some (.ok ()) := by
  cases hd : drain_instance (env.ecsFor id) id cluster region fuel with
  | none =>
    rw [show processNode env region fuel id = .diverge from by
      simp [processNode, hc, hd]] at h
    simp at h
  | some r =>
    cases r with
    | error e =>
      rw [show processNode env region fuel id
          = .done [.drainStart id] (some e) from by simp [processNode, hc, hd]] at h
      obtain ⟨h1, -⟩ := NodeOutcome.done.injEq .. ▸ h
      rw [← h1] at hm
      simp at hm
    | ok u =>
      cases u
      rw [show processNode env region fuel id
          = afterDrain env id [.drainStart id, .drained id] from by
        simp [processNode, hc, hd]] at h
      rcases afterDrain_done env id _ evs out h x hm with h1 | h1
      · simp at h1
      · exact ⟨h1, rfl⟩

theorem processInstances_terminate_mem (env : RunEnv) (region : String) (fuel : Nat)
    (cluster : String) (hc : env.ecsCluster = some cluster) :
    ∀ (ids : List String) (tr : List RunEvent) (res : Except PyErr Unit) (id : String),
    processInstances env region fuel ids = some (tr, res) →
    RunEvent.terminate id ∈ tr →
    drain_instance (env.ecsFor id) id cluster region fuel = some (.ok ()) := by
  intro ids
  induction ids with
  | nil =>
    intro tr res id h hm
    have htr : ([] : List RunEvent) = tr := congrArg Prod.fst (Option.some.inj h)
    rw [← htr] at hm
    simp at hm
  | cons id0 rest ih =>
    intro tr res id h hm
    cases hn : processNode env region fuel id0 with
    | diverge => simp [processInstances, hn] at h
    | done evs out =>
      cases out with
      | some e =>
        rw [show processInstances env region fuel (id0 :: rest) = some (evs, .error e)
          from by simp [processInstances, hn]] at h
        have htr : evs = tr := congrArg Prod.fst (Option.some.inj h)
        rw [← htr] at hm
        obtain ⟨hid, hd⟩ := processNode_terminate_drained env region fuel id0 cluster
          evs (some e) hc hn id hm
        rw [hid]
        exact hd
      | none =>
        cases hrest : processInstances env region fuel rest with
        | none => simp [processInstances, hn, hrest] at h
        | some p =>
          obtain ⟨tr', res'⟩ := p
          rw [show processInstances env region fuel (id0 :: rest)
              = some (evs ++ tr', res') from by simp [processInstances, hn, hrest]] at h
          have htr : evs ++ tr' = tr := congrArg Prod.fst (Option.some.inj h)
          rw [← htr] at hm
          rcases List.mem_append.mp hm with h1 | h1
          · obtain ⟨hid, hd⟩ := processNode_terminate_drained env region fuel id0 cluster
              evs none hc hn id h1
            rw [hid]
            exact hd
          · exact ih tr' res' id hrest h1

/-- C5: (a) when the node id matches no container-host record after a
completed enumeration, `drain_instance` fails with an error whose
message names the node id, the cluster and the region; (b) in any
rotation run with a cluster configured, a node is terminated only after
its drain returned successfully — so a drain failure aborts before
`terminate_instances` is ever invoked on that node. -/
theorem drain_resolution_failure_aborts :
    (∀ (env : EcsEnv) (id c r : String) (fuel : Nat),
      (env.listPage none).nextToken = none →
      (∀ inst ∈ env.describeAt 0 (env.listPage none).containerInstanceArns,
        inst.ec2InstanceId ≠ id) →
      drain_instance env id c r fuel = some (.error (.exn
        ("Could not find " ++ id ++ " in " ++ c ++ " (" ++ r ++ ")")))) ∧
    (∀ (env : RunEnv) (region : String) (fuel : Nat) (cluster : String)
        (ids : List String) (tr : List RunEvent) (res : Except PyErr Unit) (id : String),
      env.ecsCluster = some cluster →
      processInstances env region fuel ids = some (tr, res) →
      RunEvent.terminate id ∈ tr →
      drain_instance (env.ecsFor id) id cluster region fuel = some (.ok ())) := by
  constructor
  · intro env id c r fuel hpage hnm
    have hcl := collectLoop_single_page (env.listPage none) hpage fuel
      (env.listPage none).containerInstanceArns
    unfold drain_instance
    rw [hcl]
    exact drainFind_no_match env id c r _ hnm
  · intro env region fuel cluster ids tr res id hc h hm
    exact processInstances_terminate_mem env region fuel cluster hc ids tr res id h hm

/-- The ECS provider of the C5 witness: one page, one record for node
`i-1` with zero running tasks. -/
def c5EcsEnv : EcsEnv :=
  ⟨fun _ => ⟨["arn-1"], none⟩, fun _ _ => [⟨"arn-1", "i-1", 0⟩], fun _ => [], fun _ => 1⟩

/-- The rotation environment of the C5 witness: cluster configured,
drain of `i-1` succeeds, no termination-wait exception. -/
def c5RunEnv : RunEnv :=
  ⟨fun _ => .ok [], some "clu", fun _ => c5EcsEnv, fun _ => false, fun _ => [],
   fun _ => .ok ()⟩

/-- The empty-cluster ECS provider of the C5 witness's resolution part. -/
def c5EmptyEcsEnv : EcsEnv :=
  ⟨fun _ => ⟨[], none⟩, fun _ _ => [], fun _ => [], fun _ => 1⟩

/-- C5 witness: an empty single-page cluster makes the drain of `i-9`
fail with the message naming node, cluster and region; and in a run
that terminated `i-1`, the drain of `i-1` had returned successfully. -/
theorem drain_resolution_failure_aborts_witness :
    drain_instance c5EmptyEcsEnv "i-9" "clu" "reg" 3 = some (.error (.exn
      ("Could not find " ++ "i-9" ++ " in " ++ "clu" ++ " (" ++ "reg" ++ ")"))) ∧
    drain_instance (c5RunEnv.ecsFor "i-1") "i-1" "clu" "reg" 1 = some (.ok ()) := by
  constructor
  · exact drain_resolution_failure_aborts.1 c5EmptyEcsEnv "i-9" "clu" "reg" 3 rfl
      (by intro inst h; simp [c5EmptyEcsEnv] at h)
  · exact drain_resolution_failure_aborts.2 c5RunEnv "reg" 1 "clu" ["i-1"]
      [.drainStart "i-1", .drained "i-1", .terminate "i-1", .termWait "i-1",
        .capacityWait] (.ok ()) "i-1" rfl rfl (by decide)

/-- C4: termination is idempotent.  When the termination wait raises
and the re-queried state is `'terminated'`, the TERMINATING step
succeeds without error: the run continues with the remaining nodes and
no exception is recorded for this node.  For any other observed state
the exception is re-raised and the run aborts there. -/
theorem termination_idempotent (env : RunEnv) (region : String) (fuel : Nat)
    (id : String) (rest : List String)
    (hc : env.ecsCluster = none) (hr : env.termWaitRaises id = true) :
    (state_name env id = some "terminated" →
      processInstances env region fuel (id :: rest)
        = (processInstances env region fuel rest).map
            fun p => ((terminatingStep env id).1 ++ p.1, p.2)) ∧
    (∀ s, state_name env id = some s → s ≠ "terminated" →
      processInstances env region fuel (id :: rest)
        = some ((terminatingStep env id).1, .error .waiterError)) := by
  constructor
  · intro hst
    have hts : terminatingStep env id
        = ([.terminate id, .termWait id, .describeInst id], .skipToNext) := by
      simp [terminatingStep, hr, hst]
    have hnode : processNode env region fuel id
        = .done [.terminate id, .termWait id, .describeInst id] none := by
      simp [processNode, hc, afterDrain, hts]
    cases hrest : processInstances env region fuel rest with
    | none => simp [processInstances, hnode, hrest]
    | some p =>
      obtain ⟨tr, res⟩ := p
      simp [processInstances, hnode, hrest, hts]
  · intro s hst hsne
    have hts : terminatingStep env id
        = ([.terminate id, .termWait id, .describeInst id], .aborted .waiterError) := by
      simp [terminatingStep, hr, hst, hsne]
    have hnode : processNode env region fuel id
        = .done [.terminate id, .termWait id, .describeInst id] (some .waiterError) := by
      simp [processNode, hc, afterDrain, hts]
    simp [processInstances, hnode, hts]

/-- The rotation environment of the C4 witness: every termination wait
raises and every re-query reports `'terminated'`. -/
def c4RunEnv : RunEnv :=
  ⟨fun _ => .ok [], none, fun _ => c5EmptyEcsEnv, fun _ => true,
   fun _ => [⟨[⟨"terminated"⟩]⟩], fun _ => .ok ()⟩

/-- The rotation environment of the C4 witness's re-raise part: the
re-query reports `'shutting-down'`. -/
def c4RunEnvBad : RunEnv :=
  ⟨fun _ => .ok [], none, fun _ => c5EmptyEcsEnv, fun _ => true,
   fun _ => [⟨[⟨"shutting-down"⟩]⟩], fun _ => .ok ()⟩

/-- C4 witness: with the state already `'terminated'` the node is
processed without error and the (empty) remainder continues; with state
`'shutting-down'` the run aborts with the re-raised waiter error. -/
theorem termination_idempotent_witness :
    (processInstances c4RunEnv "reg" 1 ["i-1"]
      = (processInstances c4RunEnv "reg" 1 []).map
          fun p => ((terminatingStep c4RunEnv "i-1").1 ++ p.1, p.2)) ∧
    processInstances c4RunEnvBad "reg" 1 ["i-1"]
      = some ((terminatingStep c4RunEnvBad "i-1").1, .error .waiterError) := by
  constructor
  · exact (termination_idempotent c4RunEnv "reg" 1 "i-1" [] rfl rfl).1 rfl
  · exact (termination_idempotent c4RunEnvBad "reg" 1 "i-1" [] rfl rfl).2
      "shutting-down" rfl (by decide)

/-- The rotation environment of the C1 counter-trace: no cluster, the
termination wait raises for `i-1` only, and the re-query reports
`'terminated'`. -/
def c1RunEnv : RunEnv :=
  ⟨fun _ => .ok [⟨2, [⟨"i-1", "InService"⟩, ⟨"i-2", "InService"⟩]⟩], none,
   fun _ => c5EmptyEcsEnv, fun id => id == "i-1",
   fun _ => [⟨[⟨"terminated"⟩]⟩], fun _ => .ok ()⟩

/-- C1: in the run where the termination wait for `i-1` raised and the
re-queried state was already `'terminated'`, `restart_all` proceeds to
terminate the next member `i-2` WITHOUT invoking `wait_for_running` in
between — the `continue` on line 106 skips the capacity wait, so the
claim's "on every path" fails on this path (the produced trace places
`terminate i-2` at position 3 with no `capacityWait` before it). -/
theorem restart_all_skips_capacity_wait_when_already_terminated :
    restart_all c1RunEnv "web" "us-east-1" 1
      = some ([.terminate "i-1", .termWait "i-1", .describeInst "i-1",
               .terminate "i-2", .termWait "i-2", .capacityWait], .ok ()) ∧
    RunEvent.capacityWait ∉ [RunEvent.terminate "i-1", RunEvent.termWait "i-1",
      RunEvent.describeInst "i-1", RunEvent.terminate "i-2"] := by
  exact ⟨rfl, by decide⟩

/-- C10: `get_running_tasks` and the line-104 state access are total
only up to nonempty provider responses: `get_running_tasks` is `none`
exactly on an empty describe response and returns the head's count
otherwise; with an empty `Reservations` list the ambiguous-termination
handler itself fails with an index error; with nonempty responses the
state access succeeds. -/
theorem head_indexing_totality :
    (∀ (describe : List String → List ContainerInstance) (cid : String),
      describe [cid] = [] → get_running_tasks describe cid = none) ∧
    (∀ (describe : List String → List ContainerInstance) (cid : String)
        (x : ContainerInstance) (rest : List ContainerInstance),
      describe [cid] = x :: rest → get_running_tasks describe cid
        = some x.runningTasksCount) ∧
    (∀ (env : RunEnv) (id : String), env.termWaitRaises id = true →
      env.describeInstances id = [] →
      (terminatingStep env id).2 = .aborted .indexError) ∧
    (∀ (env : RunEnv) (id : String) (r : Reservation) (rs : List Reservation)
        (i : Ec2Instance) (tl : List Ec2Instance),
      env.describeInstances id = r :: rs → r.instances = i :: tl →
      state_name env id = some i.stateName) := by
  refine ⟨?_, ?_, ?_, ?_⟩
  · intro describe cid h
    simp [get_running_tasks, h]
  · intro describe cid x rest h
    simp [get_running_tasks, h]
  · intro env id hr hd
    simp [terminatingStep, hr, state_name, hd]
  · intro env id r rs i tl h1 h2
    simp [state_name, h1, h2]

/-- The rotation environment of the C10 witness: the handler's
describe returns no reservations. -/
def c10RunEnv : RunEnv :=
  ⟨fun _ => .ok [], none, fun _ => c5EmptyEcsEnv, fun _ => true, fun _ => [],
   fun _ => .ok ()⟩

/-- The rotation environment of the C10 witness's nonempty part. -/
def c10RunEnvOk : RunEnv :=
  ⟨fun _ => .ok [], none, fun _ => c5EmptyEcsEnv, fun _ => true,
   fun _ => [⟨[⟨"running"⟩]⟩], fun _ => .ok ()⟩

/-- C10 witness: an empty describe response makes `get_running_tasks`
return `none` and the handler abort with an index error; nonempty
responses succeed. -/
theorem head_indexing_totality_witness :
    get_running_tasks (fun _ => []) "c" = none ∧
    get_running_tasks (fun _ => [⟨"arn-1", "i-1", 3⟩]) "c" = some 3 ∧
    (terminatingStep c10RunEnv "i-1").2 = .aborted .indexError ∧
    state_name c10RunEnvOk "i-1" = some "running" := by
  refine ⟨?_, ?_, ?_, ?_⟩
  · exact head_indexing_totality.1 (fun _ => []) "c" rfl
  · exact head_indexing_totality.2.1 (fun _ => [⟨"arn-1", "i-1", 3⟩]) "c"
      ⟨"arn-1", "i-1", 3⟩ [] rfl
  · exact head_indexing_totality.2.2.1 c10RunEnv "i-1" rfl rfl
  · exact head_indexing_totality.2.2.2 c10RunEnvOk "i-1" ⟨[⟨"running"⟩]⟩ []
      ⟨"running"⟩ [] rfl rfl

end RestartAsg
